import Mathlib

/-!
Shallow embedding of `build_plugin.py` (f4se-build-tools), a single-file build
pipeline tool: dependency fetching, source patching, project-reference copying,
solution synthesis, build invocation and packaging.

Texts are modelled as `List Char` (`Chars`); file contents, command lines and
archive entry names are character lists.  Python `pathlib.Path` values are
modelled as component lists joined with `/` (posix flavour).  The regular
expressions of the source are modelled by bespoke matchers that follow the
exact backtracking behaviour of the concrete patterns (greedy `.*` restricted
to one line, lazy `[\S\s]*?`, leftmost-match search, non-overlapping `re.sub`).
-/

set_option autoImplicit false
set_option maxRecDepth 40000

deriving instance DecidableEq for Except

abbrev Chars := List Char

namespace BuildPlugin

/-! ### Generic occurrence machinery

`splits pat s` enumerates, in leftmost order, all decompositions
`s = pre ++ pat ++ post`; it is the basis of every literal-occurrence search
(`re` literal fragments, `str.replace`-like passes). -/

def splits (pat : Chars) : Chars → List (Chars × Chars)
  | [] => if pat.isPrefixOf ([] : Chars) then [([], [])] else []
  | c :: cs =>
      (if pat.isPrefixOf (c :: cs) then [(([] : Chars), (c :: cs).drop pat.length)] else [])
      ++ (splits pat cs).map (fun pq => (c :: pq.1, pq.2))

/-- Whether `pat` occurs as a contiguous sublist of `s`. -/
def occursIn (pat s : Chars) : Bool := !(splits pat s).isEmpty

theorem splits_spec (pat : Chars) : ∀ (s : Chars) (p q : Chars),
    (p, q) ∈ splits pat s → s = p ++ pat ++ q := by
  intro s
  induction s with
  | nil =>
      intro p q hm
      unfold splits at hm
      by_cases h : pat.isPrefixOf ([] : Chars)
      · simp [h] at hm
        have hp : pat <+: ([] : Chars) := List.isPrefixOf_iff_prefix.mp h
        have : pat = [] := List.prefix_nil.mp hp
        simp [hm.1, hm.2, this]
      · simp [h] at hm
  | cons c cs ih =>
      intro p q hm
      unfold splits at hm
      rcases List.mem_append.mp hm with h1 | h2
      · by_cases h : pat.isPrefixOf (c :: cs)
        · simp [h] at h1
          have hp : pat <+: (c :: cs) := List.isPrefixOf_iff_prefix.mp h
          rcases hp with ⟨t, ht⟩
          have hdrop : (c :: cs).drop pat.length = t := by
            rw [← ht]; exact List.drop_left pat t
          rw [h1.1, h1.2, hdrop, List.nil_append, ht]
        · simp [h] at h1
      · rcases List.mem_map.mp h2 with ⟨⟨p', q'⟩, hmem, heq⟩
        have hs : cs = p' ++ pat ++ q' := ih p' q' hmem
        cases heq
        simp [hs]

theorem occursIn_iff (pat s : Chars) :
    occursIn pat s = true ↔ ∃ p q, s = p ++ pat ++ q := by
  constructor
  · intro h
    unfold occursIn at h
    rcases List.exists_mem_of_ne_nil (splits pat s)
      (by simpa [List.isEmpty_iff] using h) with ⟨⟨p, q⟩, hm⟩
    exact ⟨p, q, splits_spec pat s p q hm⟩
  · intro ⟨p, q, hpq⟩
    have hmem : (p, q) ∈ splits pat s := by
      subst hpq
      induction p with
      | nil =>
          simp only [List.nil_append]
          cases hq : pat ++ q with
          | nil =>
              rcases List.append_eq_nil.mp hq with ⟨hp, hqq⟩
              subst hp; subst hqq
              simp [splits, List.isPrefixOf]
          | cons d ds =>
              have hpre : pat.isPrefixOf (d :: ds) = true :=
                List.isPrefixOf_iff_prefix.mpr ⟨q, hq⟩
              have hdrop : (d :: ds).drop pat.length = q := by
                rw [← hq]; exact List.drop_left pat q
              unfold splits
              simp [hpre, hdrop]
      | cons a as ihp =>
          unfold splits
          refine List.mem_append.mpr (Or.inr ?_)
          exact List.mem_map.mpr ⟨(as, q), by simpa using ihp, rfl⟩
    unfold occursIn
    cases hsp : splits pat s with
    | nil => rw [hsp] at hmem; simp at hmem
    | cons x xs => simp

/-- First `some` value of `f` over a list, in order; owns the lemmas the nested
backtracking searches need. -/
def firstSome {α β : Type} (f : α → Option β) : List α → Option β
  | [] => none
  | a :: as => match f a with
      | some b => some b
      | none => firstSome f as

theorem firstSome_mem {α β : Type} (f : α → Option β) :
    ∀ (l : List α) (b : β), firstSome f l = some b → ∃ a ∈ l, f a = some b := by
  intro l
  induction l with
  | nil => intro b h; simp [firstSome] at h
  | cons a as ih =>
      intro b h
      unfold firstSome at h
      cases hfa : f a with
      | some b' =>
          rw [hfa] at h
          simp only at h
          exact ⟨a, List.mem_cons_self a as, by rw [hfa, h]⟩
      | none =>
          rw [hfa] at h
          simp only at h
          rcases ih b h with ⟨a', ha', hfa'⟩
          exact ⟨a', List.mem_cons_of_mem a ha', hfa'⟩

/-! ### Line splitting

`readlines` models Python's `file.readlines()` / line iteration: the content is
split after every `'\n'`; every element except possibly the last ends with
`'\n'`, and the separators are kept. -/

/-- Prepend a character to the first line of a line list (helper for
`readlines`). -/
def consHead (c : Char) : List Chars → List Chars
  | [] => [[c]]
  | l :: ls => (c :: l) :: ls

def readlines : Chars → List Chars
  | [] => []
  | c :: cs =>
      if c = '\n' then ['\n'] :: readlines cs
      else consHead c (readlines cs)

/-- A single newline-terminated line: nonempty, ends with `'\n'`, and has no
interior `'\n'`. -/
def isNlLine : Chars → Bool
  | [] => false
  | c :: cs => if c = '\n' then cs.isEmpty else isNlLine cs

theorem readlines_eq_nil {s : Chars} : readlines s = [] ↔ s = [] := by
  constructor
  · intro h
    cases s with
    | nil => rfl
    | cons c cs =>
        simp only [readlines] at h
        by_cases hc : c = '\n'
        · simp [hc] at h
        · simp only [hc, if_false] at h
          cases hr : readlines cs with
          | nil => rw [hr] at h; simp [consHead] at h
          | cons l ls => rw [hr] at h; simp [consHead] at h
  · intro h; subst h; rfl

theorem readlines_flatten : ∀ s : Chars, (readlines s).flatten = s := by
  intro s
  induction s with
  | nil => rfl
  | cons c cs ih =>
      simp only [readlines]
      by_cases hc : c = '\n'
      · simp [hc, ih]
      · simp only [hc, if_false]
        cases hr : readlines cs with
        | nil =>
            have : cs = [] := readlines_eq_nil.mp hr
            simp [consHead, this]
        | cons l ls =>
            rw [hr] at ih
            simp only [consHead]
            simp only [List.flatten_cons] at ih ⊢
            simp [ih]

theorem readlines_append_nlLine {l : Chars} (hl : isNlLine l = true) :
    ∀ t : Chars, readlines (l ++ t) = l :: readlines t := by
  induction l with
  | nil => simp [isNlLine] at hl
  | cons c cs ih =>
      intro t
      by_cases hc : c = '\n'
      · subst hc
        simp only [isNlLine, if_pos, List.isEmpty_iff] at hl
        subst hl
        simp [readlines]
      · simp [isNlLine, hc] at hl
        have hrec := ih hl t
        have hcs : cs ≠ [] := by
          intro h; subst h; simp [isNlLine] at hl
        show readlines (c :: (cs ++ t)) = (c :: cs) :: readlines t
        rw [show readlines (c :: (cs ++ t)) = consHead c (readlines (cs ++ t)) from by
          simp [readlines, hc]]
        rw [hrec]
        cases cs with
        | nil => exact absurd rfl hcs
        | cons d ds => rfl

theorem readlines_head_nl : ∀ {s : Chars}, '\n' ∈ s →
    ∃ l0 tl, readlines s = l0 :: tl ∧ isNlLine l0 = true := by
  intro s
  induction s with
  | nil => intro h; simp at h
  | cons c cs ih =>
      intro h
      by_cases hc : c = '\n'
      · subst hc
        exact ⟨['\n'], readlines cs, by simp [readlines], by simp [isNlLine]⟩
      · have hcs : '\n' ∈ cs := by
          rcases List.mem_cons.mp h with h1 | h2
          · exact absurd h1.symm hc
          · exact h2
        rcases ih hcs with ⟨l0, tl, hrl, hnl⟩
        have hl0 : l0 ≠ [] := by
          intro h0; subst h0; simp [isNlLine] at hnl
        refine ⟨c :: l0, tl, ?_, ?_⟩
        · simp only [readlines, hc, if_false, hrl]
          cases l0 with
          | nil => exact absurd rfl hl0
          | cons d ds => simp [consHead]
        · cases l0 with
          | nil => exact absurd rfl hl0
          | cons d ds => simpa [isNlLine, hc] using hnl

theorem readlines_cons_nlLine : ∀ {s : Chars} {l : Chars} {tl : List Chars},
    readlines s = l :: tl → tl ≠ [] → isNlLine l = true := by
  intro s
  induction s with
  | nil => intro l tl h _; simp [readlines] at h
  | cons c cs ih =>
      intro l tl h htl
      simp only [readlines] at h
      by_cases hc : c = '\n'
      · subst hc
        simp only [if_pos] at h
        injection h with h1 h2
        rw [← h1]
        simp [isNlLine]
      · rw [if_neg hc] at h
        cases hr : readlines cs with
        | nil =>
            rw [hr] at h
            simp only [consHead] at h
            injection h with h1 h2
            exact absurd h2.symm htl
        | cons l' ls =>
            rw [hr] at h
            simp only [consHead] at h
            injection h with h1 h2
            have hls : ls ≠ [] := by rw [h2]; exact htl
            have hnl' := ih hr hls
            have hl' : l' ≠ [] := by
              intro h0; subst h0; simp [isNlLine] at hnl'
            rw [← h1]
            cases l' with
            | nil => exact absurd rfl hl'
            | cons d ds => simpa [isNlLine, hc] using hnl'

theorem readlines_flatten_tail {s l0 : Chars} {tl : List Chars}
    (h : readlines s = l0 :: tl) : readlines tl.flatten = tl := by
  cases htl : tl with
  | nil => rfl
  | cons x tl' =>
      subst htl
      have hnl : isNlLine l0 = true := readlines_cons_nlLine h (by simp)
      have hs : s = l0 ++ (x :: tl').flatten := by
        have := readlines_flatten s
        rw [h] at this
        simpa using this.symm
      have : readlines s = l0 :: readlines ((x :: tl').flatten) := by
        rw [hs]; exact readlines_append_nlLine hnl _
      rw [h] at this
      exact (List.cons.injEq _ _ _ _ ▸ this).2.symm

/-! ### `add_include_line` (source lines 104-116)

The file is read as a line list; if the normalized include line is already a
member nothing happens and `False` is returned, otherwise the line is inserted
at list index 1 and the file rewritten. -/

/-- Python: `if not include_line.endswith("\n"): include_line += "\n"`. -/
def normInclude (inc : Chars) : Chars :=
  if inc.getLast? = some '\n' then inc else inc ++ ['\n']

/-- Python `list.insert(1, x)`: appends when the list has fewer than 2
elements, otherwise inserts before index 1. -/
def pyInsert1 {α : Type} (x : α) : List α → List α
  | [] => [x]
  | a :: rest => a :: x :: rest

/-- Model of `add_include_line`: returns (whether a patch was applied, new file
content). -/
def add_include_line (s inc : Chars) : Bool × Chars :=
  let incl := normInclude inc
  let lines := readlines s
  if incl ∈ lines then (false, s)
  else (true, (pyInsert1 incl lines).flatten)

/-! ### The labeled-PropertyGroup block patterns

`patch_f4se` and `make_solution` use regexes of the shared shape
`(<PropertyGroup.*Label="L">[\S\s]*?<TAG>)(.*)(</TAG>[\S\s]*?</PropertyGroup>)`
(flags `re.MULTILINE`, which is irrelevant: the patterns contain no `^`/`$`).
Semantics of the pieces, mirrored by the matcher below:
- `.*` is greedy and cannot cross `'\n'`; followed by a literal, it
  backtracks from the rightmost in-line literal occurrence;
- `[\S\s]*?` is lazy and crosses lines: occurrences of the following literal
  are tried leftmost-first;
- `re.search` returns the match at the leftmost feasible start position.

Occurrences of a literal inside the current line are exactly the `splits`
whose prefix part contains no `'\n'` (the literals involved contain none). -/

def splitsInLine (pat : Chars) (s : Chars) : List (Chars × Chars) :=
  (splits pat s).filter (fun pq => pq.1.all (fun c => c ≠ '\n'))

theorem splitsInLine_spec {pat s p q : Chars} (h : (p, q) ∈ splitsInLine pat s) :
    s = p ++ pat ++ q :=
  splits_spec pat s p q (List.mem_of_mem_filter h)

def pgOpenPat : Chars := "<PropertyGroup".data
def pgClosePat : Chars := "</PropertyGroup>".data

/-- Match the block pattern anchored at the start of `s`.  On success returns
`(g1, g2, g3, rest)`: the three capture groups and the text after the match,
with `s = g1 ++ g2 ++ g3 ++ rest`. -/
def tryBlockAt (labelPat tagOpen tagClose : Chars) (s : Chars) :
    Option (Chars × Chars × Chars × Chars) :=
  if pgOpenPat.isPrefixOf s then
    let s1 := s.drop pgOpenPat.length
    firstSome (fun a1s2 =>
      firstSome (fun a2s3 =>
        firstSome (fun g2s4 =>
          (splits pgClosePat g2s4.2).head?.map (fun a3rest =>
            (pgOpenPat ++ a1s2.1 ++ labelPat ++ a2s3.1 ++ tagOpen,
             g2s4.1,
             tagClose ++ a3rest.1 ++ pgClosePat,
             a3rest.2)))
          ((splitsInLine tagClose a2s3.2).reverse))
        (splits tagOpen a1s2.2))
      ((splitsInLine labelPat s1).reverse)
  else none

/-- Leftmost-search version of `tryBlockAt` (models `re.search`/the scan of
`re.sub`): also returns the text `pre` before the match. -/
def findBlock (labelPat tagOpen tagClose : Chars) : Chars →
    Option (Chars × Chars × Chars × Chars × Chars)
  | [] => none
  | c :: cs =>
      match tryBlockAt labelPat tagOpen tagClose (c :: cs) with
      | some (g1, g2, g3, rest) => some ([], g1, g2, g3, rest)
      | none =>
          (findBlock labelPat tagOpen tagClose cs).map
            (fun m => (c :: m.1, m.2))

theorem tryBlockAt_spec {labelPat tagOpen tagClose s g1 g2 g3 rest : Chars}
    (h : tryBlockAt labelPat tagOpen tagClose s = some (g1, g2, g3, rest)) :
    s = g1 ++ g2 ++ g3 ++ rest ∧ (∃ a, g1 = a ++ tagOpen) ∧
      (∃ b, g3 = tagClose ++ b) ∧ g1.length > 0 ∧ g3.length > 0 := by
  unfold tryBlockAt at h
  by_cases hpre : pgOpenPat.isPrefixOf s
  · rw [if_pos hpre] at h
    rcases firstSome_mem _ _ _ h with ⟨⟨a1, s2⟩, hm1, h1⟩
    rcases firstSome_mem _ _ _ h1 with ⟨⟨a2, s3⟩, hm2, h2⟩
    rcases firstSome_mem _ _ _ h2 with ⟨⟨g2', s4⟩, hm3, h3⟩
    cases hhd : (splits pgClosePat s4).head? with
    | none => rw [hhd] at h3; simp at h3
    | some a3rest =>
        rw [hhd] at h3
        obtain ⟨a3, rest'⟩ := a3rest
        simp only [Option.map, Prod.mk.injEq, Option.some.injEq] at h3
        obtain ⟨hg1, hg2, hg3, hrest⟩ := h3
        have hs1 : s.drop pgOpenPat.length = a1 ++ labelPat ++ s2 :=
          splitsInLine_spec (List.mem_reverse.mp hm1)
        have hs2 : s2 = a2 ++ tagOpen ++ s3 := splits_spec _ _ _ _ hm2
        have hs3 : s3 = g2' ++ tagClose ++ s4 :=
          splitsInLine_spec (List.mem_reverse.mp hm3)
        have hs4 : s4 = a3 ++ pgClosePat ++ rest' := by
          apply splits_spec pgClosePat s4
          exact List.mem_of_mem_head? hhd
        have hsfull : s = pgOpenPat ++ (a1 ++ labelPat ++ s2) := by
          rcases List.isPrefixOf_iff_prefix.mp hpre with ⟨t, ht⟩
          have hdr : s.drop pgOpenPat.length = t := by rw [← ht]; exact List.drop_left _ _
          rw [← ht, hdr.symm.trans hs1]
        constructor
        · rw [← hg1, ← hg2, ← hg3, ← hrest, hsfull, hs2, hs3, hs4]
          simp [List.append_assoc]
        · refine ⟨⟨pgOpenPat ++ a1 ++ labelPat ++ a2, ?_⟩, ⟨a3 ++ pgClosePat, ?_⟩, ?_, ?_⟩
          · rw [← hg1]
          · rw [← hg3]; simp [List.append_assoc]
          · rw [← hg1]
            have hpg : pgOpenPat.length > 0 := by decide
            simp only [List.length_append]
            omega
          · rw [← hg3]
            have hpc : pgClosePat.length > 0 := by decide
            simp only [List.length_append]
            omega
  · rw [if_neg hpre] at h
    simp at h

theorem findBlock_spec {labelPat tagOpen tagClose : Chars} :
    ∀ {s pre g1 g2 g3 rest : Chars},
    findBlock labelPat tagOpen tagClose s = some (pre, g1, g2, g3, rest) →
    s = pre ++ g1 ++ g2 ++ g3 ++ rest ∧ (∃ a, g1 = a ++ tagOpen) ∧
      (∃ b, g3 = tagClose ++ b) ∧ rest.length < s.length := by
  intro s
  induction s with
  | nil => intro pre g1 g2 g3 rest h; simp [findBlock] at h
  | cons c cs ih =>
      intro pre g1 g2 g3 rest h
      unfold findBlock at h
      cases htry : tryBlockAt labelPat tagOpen tagClose (c :: cs) with
      | some m =>
          obtain ⟨m1, m2, m3, m4⟩ := m
          rw [htry] at h
          simp only [Prod.mk.injEq, Option.some.injEq] at h
          obtain ⟨hpre, hg1, hg2, hg3, hrest⟩ := h
          rcases tryBlockAt_spec htry with ⟨hdec, hopen, hclose, hlen1, hlen3⟩
          subst hpre; subst hg1; subst hg2; subst hg3; subst hrest
          refine ⟨by simpa using hdec, hopen, hclose, ?_⟩
          have hlen := congrArg List.length hdec
          simp only [List.length_append, List.length_cons] at hlen ⊢
          omega
      | none =>
          rw [htry] at h
          cases hrec : findBlock labelPat tagOpen tagClose cs with
          | none => rw [hrec] at h; simp at h
          | some m =>
              obtain ⟨mpre, mg1, mg2, mg3, mrest⟩ := m
              rw [hrec] at h
              simp only [Option.map, Prod.mk.injEq, Option.some.injEq] at h
              obtain ⟨hpre, hg1, hg2, hg3, hrest⟩ := h
              rcases ih hrec with ⟨hdec, hopen, hclose, hlen⟩
              subst hpre; subst hg1; subst hg2; subst hg3; subst hrest
              refine ⟨by simp [hdec], hopen, hclose, ?_⟩
              simp only [List.length_cons]
              omega

/-! ### `patch_f4se`'s ConfigurationType substitution (source lines 136-143)

`re.sub` with pattern
`(<PropertyGroup.*Label="Configuration">[\S\s]*?<ConfigurationType>)(.*)`
`(</ConfigurationType>[\S\s]*?</PropertyGroup>)` and replacement
`\1StaticLibrary\3`: every non-overlapping leftmost match has its group 2
replaced by `StaticLibrary`; scanning resumes after each match. -/

def confLabelPat : Chars := "Label=\"Configuration\">".data
def ctOpenPat : Chars := "<ConfigurationType>".data
def ctClosePat : Chars := "</ConfigurationType>".data
def staticLibStr : Chars := "StaticLibrary".data

/-- Fueled worker for the substitution (the fuel strictly exceeds the text
length on every reachable call, so it never runs out). -/
def configTypeSubGo : Nat → Chars → Chars
  | 0, s => s
  | fuel + 1, s =>
      match findBlock confLabelPat ctOpenPat ctClosePat s with
      | none => s
      | some (pre, g1, _g2, g3, rest) =>
          pre ++ g1 ++ staticLibStr ++ g3 ++ configTypeSubGo fuel rest

/-- Model of the `re.sub` call in `patch_f4se`. -/
def configTypeSub (s : Chars) : Chars := configTypeSubGo (s.length + 1) s

/-- Alternation of unchanged chunks and replaced spans:
`interleave [(c1, r1), ..., (cn, rn)] t = c1 ++ r1 ++ ... ++ cn ++ rn ++ t`. -/
def interleave : List (Chars × Chars) → Chars → Chars
  | [], t => t
  | (c, r) :: ps, t => c ++ (r ++ interleave ps t)

/-- Every replaced span is flanked by a chunk ending in `<ConfigurationType>`
and a following chunk beginning with `</ConfigurationType>`. -/
def flankOk : List (Chars × Chars) → Chars → Prop
  | [], _ => True
  | (c, _) :: ps, t =>
      (∃ a, c = a ++ ctOpenPat) ∧
      (match ps with
       | [] => ∃ b, t = ctClosePat ++ b
       | (c2, _) :: _ => ∃ b, c2 = ctClosePat ++ b) ∧
      flankOk ps t

theorem configTypeSubGo_frame : ∀ (fuel : Nat) (s : Chars), s.length < fuel →
    ∃ ps t, s = interleave ps t ∧
      configTypeSubGo fuel s = interleave (ps.map (fun p => (p.1, staticLibStr))) t ∧
      flankOk ps t := by
  intro fuel
  induction fuel with
  | zero => intro s h; omega
  | succ n ih =>
      intro s hs
      cases hfb : findBlock confLabelPat ctOpenPat ctClosePat s with
      | none =>
          refine ⟨[], s, rfl, ?_, trivial⟩
          simp only [configTypeSubGo, hfb, List.map_nil]
          rfl
      | some m =>
          obtain ⟨pre, g1, g2, g3, rest⟩ := m
          rcases findBlock_spec hfb with ⟨hdec, ⟨a, ha⟩, ⟨b, hb⟩, hlen⟩
          have hrest : rest.length < n := by omega
          rcases ih rest hrest with ⟨ps', t', hdec', hsub', hflank'⟩
          cases hps' : ps' with
          | nil =>
              rw [hps'] at hdec' hsub' hflank'
              refine ⟨[(pre ++ g1, g2)], g3 ++ t', ?_, ?_, ?_⟩
              · simp only [interleave] at hdec' ⊢
                rw [hdec, hdec']
                simp [List.append_assoc]
              · simp only [configTypeSubGo, hfb, List.map_cons, List.map_nil, interleave]
                rw [hsub']
                simp [interleave, List.append_assoc]
              · refine ⟨⟨pre ++ a, ?_⟩, ⟨b ++ t', ?_⟩, trivial⟩
                · rw [ha]; simp [List.append_assoc]
                · rw [hb]; simp [List.append_assoc]
          | cons hd tl =>
              obtain ⟨c2, r2⟩ := hd
              rw [hps'] at hdec' hsub' hflank'
              refine ⟨(pre ++ g1, g2) :: (g3 ++ c2, r2) :: tl, t', ?_, ?_, ?_⟩
              · simp only [interleave] at hdec' ⊢
                rw [hdec, hdec']
                simp [List.append_assoc]
              · simp only [configTypeSubGo, hfb, List.map_cons, interleave] at hsub' ⊢
                rw [hsub']
                simp [List.append_assoc]
              · obtain ⟨⟨a2, ha2⟩, hnext, hrest'⟩ := hflank'
                refine ⟨⟨pre ++ a, ?_⟩, ⟨b ++ c2, ?_⟩, ⟨g3 ++ a2, ?_⟩, ?_, hrest'⟩
                · rw [ha]; simp [List.append_assoc]
                · rw [hb]; simp [List.append_assoc]
                · rw [ha2]; simp [List.append_assoc]
                · cases tl with
                  | nil => exact hnext
                  | cons hd2 tl2 => exact hnext

/-! ### `make_solution`'s substitutions (source lines 187-215)

`re_project` is an entirely literal pattern (the parentheses/braces are
escaped or non-quantifier braces): it matches the exact placeholder project
declaration and the replacement re-inserts groups 1-3 around the extracted
name and the escaped relative path.  `re_guid = (.*){0...0}(.*)` has no
`MULTILINE`/`DOTALL` flag, so `.*` stays within one line: each line containing
the all-zero identifier yields exactly one match whose effect is to replace
the last such identifier on the line. -/

def replaceAllLitGo (pat repl : Chars) : Nat → Chars → Chars
  | 0, s => s
  | fuel + 1, s =>
      match (splits pat s).head? with
      | none => s
      | some pq => pq.1 ++ repl ++ replaceAllLitGo pat repl fuel pq.2

/-- Replace every (leftmost, non-overlapping) occurrence of the literal `pat`
by `repl`; models `re.sub` for a pattern with no metacharacters.  (The fuel
strictly exceeds the text length on every reachable call.) -/
def replaceAllLit (pat repl s : Chars) : Chars :=
  if pat.isEmpty then s else replaceAllLitGo pat repl (s.length + 1) s

def zeroGuidPat : Chars :=
  "\x7b00000000-0000-0000-0000-000000000000\x7d".data

/-- Replace the last all-zero identifier of a single line by `guid` (the
effect of one `re_guid` match on a line that contains the identifier). -/
def guidSubLine (guid line : Chars) : Chars :=
  match (splits zeroGuidPat line).getLast? with
  | none => line
  | some pq => pq.1 ++ guid ++ pq.2

/-- Model of `re_guid.sub(rf"\1{plugin_guid}\2", solution_text)`. -/
def reGuidSub (guid s : Chars) : Chars :=
  ((readlines s).map (guidSubLine guid)).flatten

def projLit1 : Chars :=
  "Project(\"\x7b8BC9CEB8-8B4A-11D0-8D11-00A0C91BC942\x7d\") = \"".data
def projLit2 : Chars := "\", \"".data
def projLit3 : Chars :=
  ("\", \"\x7b00000000-0000-0000-0000-000000000000\x7d\"\nEndProject").data

/-- The full literal text matched by `re_project`. -/
def projPat : Chars :=
  projLit1 ++ "PLUGIN_NAME".data ++ projLit2 ++ "PLUGIN_DIR".data ++ projLit3

/-- Model of `re_project.sub(rf"\1{plugin_name}\2{relpath}\3", solution_text)`. -/
def reProjectSub (name relPath s : Chars) : Chars :=
  replaceAllLit projPat (projLit1 ++ name ++ projLit2 ++ relPath ++ projLit3) s

def globalsLabelPat : Chars := "Label=\"Globals\">".data
def rootNsOpenPat : Chars := "<RootNamespace>".data
def rootNsClosePat : Chars := "</RootNamespace>".data
def projGuidOpenPat : Chars := "<ProjectGuid>".data
def projGuidClosePat : Chars := "</ProjectGuid>".data

/-- `re_proj_name.search(project_text)` of the source; backreference 2 holds
the project name. -/
def searchProjName (projectText : Chars) :
    Option (Chars × Chars × Chars × Chars × Chars) :=
  findBlock globalsLabelPat rootNsOpenPat rootNsClosePat projectText

/-- `re_proj_guid.search(project_text)` of the source; backreference 2 holds
the project identifier. -/
def searchProjGuid (projectText : Chars) :
    Option (Chars × Chars × Chars × Chars × Chars) :=
  findBlock globalsLabelPat projGuidOpenPat projGuidClosePat projectText

def fatalMsg : String := "FATAL: Cannot extract name or GUID from project file."

/-- Process-exit outcomes: an explicit `SystemExit` (possibly after a printed
message), or an uncaught exception (Python then exits with status 1). -/
inductive PyExit : Type
  | sysExit (code : Nat) (msg : Option String)
  | uncaught (desc : String)
deriving DecidableEq, Repr

def PyExit.exitCode : PyExit → Nat
  | .sysExit code _ => code
  | .uncaught _ => 1

/-- Text-level core of `make_solution`: extract name and identifier from the
project file, then apply the two substitutions to the template, given the
already-computed (escaped) relative path of the build project. -/
def makeSolutionText (projectText templateText relPath : Chars) :
    Except PyExit Chars :=
  match searchProjName projectText, searchProjGuid projectText with
  | some nm, some gm =>
      .ok (reGuidSub gm.2.2.1 (reProjectSub nm.2.2.1 relPath templateText))
  | _, _ => .error (.sysExit 1 (some fatalMsg))

/-! ### `package_plugin`'s header parsing (source lines 231-243)

`re_property = ^#define\s+(\w+)\s+(?:"(.*)")|([\w.]+)$` — the alternation is
top-level, so the pattern is A | B with `A = ^#define\s+(\w+)\s+(?:"(.*)")`
and `B = ([\w.]+)$`.  Each line is searched separately; `^`/`$` are
string anchors (no MULTILINE).  The dict update is
`properties[m[0]] = m[1] or m[2]` — keyed by the whole matched text, valued
by group 1 (the macro name) or group 2. -/

def isPySpace (c : Char) : Bool :=
  c = ' ' || c = '\t' || c = '\n' || c = '\r' || c = '\x0b' || c = '\x0c'

def isPyWord (c : Char) : Bool := c.isAlphanum || c = '_'

def isPyWordDot (c : Char) : Bool := isPyWord c || c = '.'

/-- Alternative A anchored at the line start: on success returns
`(m0, name)` where `m0` is the whole matched text and `name` group 1. -/
def matchDefine (s : Chars) : Option (Chars × Chars) :=
  if "#define".data.isPrefixOf s then
    let r1 := s.drop 7
    let sp1 := r1.takeWhile isPySpace
    if sp1.isEmpty then none else
    let r2 := r1.drop sp1.length
    let name := r2.takeWhile isPyWord
    if name.isEmpty then none else
    let r3 := r2.drop name.length
    let sp2 := r3.takeWhile isPySpace
    if sp2.isEmpty then none else
    match r3.drop sp2.length with
    | '"' :: r5 =>
        let line := r5.takeWhile (fun c => c ≠ '\n')
        match (splits ['"'] line).getLast? with
        | none => none
        | some pq =>
            some ("#define".data ++ sp1 ++ name ++ sp2 ++ '"' :: pq.1 ++ ['"'], name)
    | _ => none
  else none

/-- Alternative B `([\w.]+)$`: the earliest suffix (of the line without its
final newline) consisting only of word/dot characters. -/
def altBGo : Chars → Option Chars
  | [] => none
  | c :: cs =>
      if (c :: cs).all isPyWordDot then some (c :: cs) else altBGo cs

def altB (s : Chars) : Option Chars :=
  altBGo (if s.getLast? = some '\n' then s.dropLast else s)

/-- `re_property.search(line)`: returns `(m[0], m[1] or m[2])` on a match
(Python `or` of the optional groups; `None` is modelled as `none`). -/
def pyMatchProp (s : Chars) : Option (Chars × Option Chars) :=
  match matchDefine s with
  | some m0name => some (m0name.1, some m0name.2)
  | none => (altB s).map (fun t => (t, none))

/-- Python dict update (insertion order is irrelevant here; only lookups are
observed). -/
def dictSet (d : List (Chars × Option Chars)) (k : Chars) (v : Option Chars) :
    List (Chars × Option Chars) :=
  if d.any (fun p => p.1 == k) then
    d.map (fun p => if p.1 == k then (k, v) else p)
  else d ++ [(k, v)]

/-- The `properties` dict after the header has been scanned line by line. -/
def buildProps (lines : List Chars) : List (Chars × Option Chars) :=
  lines.foldl
    (fun d l =>
      match pyMatchProp l with
      | some kv => dictSet d kv.1 kv.2
      | none => d)
    []

/-- Python truthiness of an optional string (`None` and `""` are falsy). -/
def pyTruthy : Option Chars → Bool
  | some (_ :: _) => true
  | _ => false

/-- `str(x)` as used by `"{name} {version}".format(...)`. -/
def pyStrOpt : Option Chars → Chars
  | none => "None".data
  | some s => s

/-- The archive display name computed by `package_plugin` from the header
lines: the whole `try` block, with any exception (in particular the `KeyError`
of `properties["PLUGIN_NAME_SHORT"]`) producing the fallback `plugin`. -/
def computeArchiveName (lines : List Chars) : Chars :=
  let props := buildProps lines
  let long := (props.lookup "PLUGIN_NAME_LONG".data).join
  let nameRes : Except Unit (Option Chars) :=
    if pyTruthy long then .ok long
    else
      match props.lookup "PLUGIN_NAME_SHORT".data with
      | some v => .ok v
      | none => .error ()
  match nameRes with
  | .error _ => "plugin".data
  | .ok n =>
      pyStrOpt n ++ " ".data ++
        pyStrOpt (props.lookup "PLUGIN_VERSION_STRING".data).join

/-- File name of the archive written by `package_plugin`. -/
def archiveFileName (lines : List Chars) : Chars :=
  computeArchiveName lines ++ ".zip".data

/-! ### Paths and the filesystem

`pathlib.Path` values are modelled by their component lists (posix flavour, no
drive/anchor handling: the tool only ever joins and relativizes paths it built
itself).  `str(path)` joins the components with `/`.  The filesystem is an
association list from path strings to file contents; directory-listing order
(`glob`, which the spec calls unspecified) is modelled as the list order. -/

structure PyPath : Type where
  parts : List Chars
deriving DecidableEq, Repr

/-- `path / "seg"` for a single component. -/
def pathDiv (p : PyPath) (seg : Chars) : PyPath := ⟨p.parts ++ [seg]⟩

/-- `path / "a/b"`: pathlib splits a multi-component operand. -/
def pathDivMulti (p : PyPath) (segs : List Chars) : PyPath := ⟨p.parts ++ segs⟩

def joinSep : List Chars → Chars
  | [] => []
  | [a] => a
  | a :: rest => a ++ '/' :: joinSep rest

/-- `str(path)` (posix separators). -/
def pathStr (p : PyPath) : Chars := joinSep p.parts

/-- `p.relative_to(q)`: strips the component prefix, `ValueError` → `none`. -/
def relativeTo (p q : PyPath) : Option PyPath :=
  if q.parts.isPrefixOf p.parts then some ⟨p.parts.drop q.parts.length⟩ else none

/-- `str(x).replace("\\", r"\\")` as applied to the relative path in
`make_solution`. -/
def escBackslash : Chars → Chars
  | [] => []
  | c :: cs => if c = '\\' then '\\' :: '\\' :: escBackslash cs else c :: escBackslash cs

/-- The escaped relative path `make_solution` substitutes for `PLUGIN_DIR`:
`str(ctx.build_project.relative_to(ctx.build_dir)).replace("\\", r"\\")`. -/
def solutionRelPath (buildProject buildDir : PyPath) : Option Chars :=
  (relativeTo buildProject buildDir).map (fun p => escBackslash (pathStr p))

abbrev FS := List (Chars × Chars)

def fsRead (fs : FS) (key : Chars) : Option Chars := fs.lookup key

def fsWrite (fs : FS) (key content : Chars) : FS :=
  if fs.any (fun p => p.1 == key) then
    fs.map (fun p => if p.1 == key then (key, content) else p)
  else fs ++ [(key, content)]

/-- `base.glob("*" + ext)` followed by `next(...)`: the first direct child of
`base` (in filesystem enumeration order, modelled as the list order) whose
name ends with `ext`. -/
def globFirst (fs : FS) (base ext : Chars) : Option Chars :=
  (fs.map Prod.fst).find? (fun k =>
    (base ++ ['/']).isPrefixOf k &&
    (let name := k.drop (base.length + 1)
     name.all (fun c => c ≠ '/') && ext.isSuffixOf name))

/-! ### `fetch_f4se` (source lines 56-101) -/

def F4SE_REPO : Chars := "https://github.com/ianpatt/f4se".data
def F4SE_COMMON_REPO : Chars := "https://github.com/ianpatt/common".data

/-- The git command lines issued by `fetch_f4se`, as a function of whether
`build_dir/f4se` and `build_dir/common` already exist.  Path arguments are
rendered with `str`. -/
def fetchCmds (buildDir : PyPath) (revision : Chars)
    (f4seExists commonExists : Bool) : List (List Chars) :=
  (if f4seExists then
    [["git".data, "-C".data, pathStr (pathDiv buildDir "f4se".data),
      "fetch".data, "--depth=1".data, "origin".data,
      revision ++ ":refs/remotes/origin/".data ++ revision],
     ["git".data, "-C".data, pathStr (pathDiv buildDir "f4se".data),
      "checkout".data, "--force".data]]
  else
    [["git".data, "clone".data, "--branch".data, revision, "--depth=1".data,
      F4SE_REPO, pathStr (pathDiv buildDir "f4se".data)]])
  ++
  (if commonExists then
    [["git".data, "-C".data, pathStr (pathDiv buildDir "common".data),
      "fetch".data, "--depth=1".data, "origin".data, "HEAD".data],
     ["git".data, "-C".data, pathStr (pathDiv buildDir "common".data),
      "reset".data, "--hard".data, "FETCH_HEAD".data]]
  else
    [["git".data, "clone".data, "--depth=1".data, F4SE_COMMON_REPO,
      pathStr (pathDiv buildDir "common".data)]])

/-- Run commands in order with `check=True`; the first non-zero exit raises
`SystemExit(returncode)` and no later command runs. -/
def runCmdsSeq (run : List Chars → Nat) : List (List Chars) → Except PyExit Unit
  | [] => .ok ()
  | c :: cs => if run c = 0 then runCmdsSeq run cs else .error (.sysExit (run c) none)

/-- The first command of the list whose exit status is non-zero. -/
def firstFailing (run : List Chars → Nat) : List (List Chars) → Option (List Chars)
  | [] => none
  | c :: cs => if run c = 0 then firstFailing run cs else some c

theorem runCmdsSeq_error {run : List Chars → Nat} :
    ∀ {cmds : List (List Chars)} {c : List Chars},
    firstFailing run cmds = some c →
    runCmdsSeq run cmds = .error (.sysExit (run c) none) ∧ run c ≠ 0 := by
  intro cmds
  induction cmds with
  | nil => intro c h; simp [firstFailing] at h
  | cons d ds ih =>
      intro c h
      unfold firstFailing at h
      unfold runCmdsSeq
      by_cases hd : run d = 0
      · rw [if_pos hd] at h
        rw [if_pos hd]
        exact ih h
      · rw [if_neg hd] at h
        injection h with h
        subst h
        rw [if_neg hd]
        exact ⟨rfl, hd⟩

theorem runCmdsSeq_ok {run : List Chars → Nat} :
    ∀ {cmds : List (List Chars)}, firstFailing run cmds = none →
    runCmdsSeq run cmds = .ok () := by
  intro cmds
  induction cmds with
  | nil => intro _; rfl
  | cons d ds ih =>
      intro h
      unfold firstFailing at h
      unfold runCmdsSeq
      by_cases hd : run d = 0
      · rw [if_pos hd] at h; rw [if_pos hd]; exact ih h
      · rw [if_neg hd] at h; simp at h

/-! ### `patch_f4se` (source lines 119-154) as a filesystem transformation -/

def xmmIncludeLine : Chars := "#include <xmmintrin.h>".data
def algorithmIncludeLine : Chars := "#include <algorithm>".data

/-- `patch_f4se`: rewrite the ConfigurationType in `f4se/f4se.vcxproj`, then
apply the two include-line patches; returns the new filesystem and the number
of patches applied.  A missing file is an uncaught `FileNotFoundError`. -/
def patch_f4se (fs : FS) (f4seDir : PyPath) : Except PyExit (FS × Nat) :=
  let projKey := pathStr (pathDivMulti f4seDir ["f4se".data, "f4se.vcxproj".data])
  match fsRead fs projKey with
  | none => .error (.uncaught "FileNotFoundError")
  | some projText =>
      let fs1 := fsWrite fs projKey (configTypeSub projText)
      let bsKey := pathStr (pathDivMulti f4seDir ["f4se".data, "BSSkin.h".data])
      match fsRead fs1 bsKey with
      | none => .error (.uncaught "FileNotFoundError")
      | some bsText =>
          let r1 := add_include_line bsText xmmIncludeLine
          let fs2 := fsWrite fs1 bsKey r1.2
          let paKey := pathStr (pathDivMulti f4seDir ["f4se".data, "PapyrusObjects.h".data])
          match fsRead fs2 paKey with
          | none => .error (.uncaught "FileNotFoundError")
          | some paText =>
              let r2 := add_include_line paText algorithmIncludeLine
              let fs3 := fsWrite fs2 paKey r2.2
              .ok (fs3, (if r1.1 then 1 else 0) + (if r2.1 then 1 else 0))

/-! ### `update_project_references` (source lines 157-179) -/

/-- Find the first `*.vcxproj` in the project directory and copy it verbatim
to `build_dir/build.vcxproj`.  An empty glob raises `StopIteration`
(uncaught).  Returns (filesystem, source project path, build project path). -/
def update_project_references (fs : FS) (projectDir buildDir : PyPath) :
    Except PyExit (FS × Chars × PyPath) :=
  match globFirst fs (pathStr projectDir) ".vcxproj".data with
  | none => .error (.uncaught "StopIteration")
  | some srcProject =>
      match fsRead fs srcProject with
      | none => .error (.uncaught "FileNotFoundError")
      | some content =>
          let buildProject := pathDiv buildDir "build.vcxproj".data
          .ok (fsWrite fs (pathStr buildProject) content, srcProject, buildProject)

/-! ### `make_solution` (source lines 182-215) as a filesystem transformation -/

/-- `make_solution`: read the source project, extract name and identifier
(fatal exit 1 on failure, before anything is written), substitute into the
template, and write `build_dir/f4se_plugin.sln`.  The bundled template is a
parameter (it sits next to the script, outside the modelled tree). -/
def make_solution (fs : FS) (srcProject : Chars) (buildDir buildProject : PyPath)
    (template : Chars) : Except PyExit FS :=
  match fsRead fs srcProject with
  | none => .error (.uncaught "FileNotFoundError")
  | some projText =>
      match searchProjName projText, searchProjGuid projText with
      | some nm, some gm =>
          match solutionRelPath buildProject buildDir with
          | none => .error (.uncaught "ValueError")
          | some rel =>
              .ok (fsWrite fs (pathStr (pathDiv buildDir "f4se_plugin.sln".data))
                (reGuidSub gm.2.2.1 (reProjectSub nm.2.2.1 rel template)))
      | _, _ => .error (.sysExit 1 (some fatalMsg))

/-! ### `build_plugin` (source lines 218-227) -/

/-- The msbuild command line: solution path relative to the build directory,
toolset, include path (f4se dir, build dir, inherited `INCLUDE`), `UseEnv`,
Release configuration. -/
def msbuildCmd (buildDir : PyPath) (platformToolset includeEnv : Chars) :
    List Chars :=
  ["msbuild".data,
   "f4se_plugin.sln".data,
   "/p:PlatformToolset=".data ++ platformToolset,
   "/p:IncludePath=\"".data ++ pathStr (pathDiv buildDir "f4se".data) ++ ";".data
     ++ pathStr buildDir ++ ";".data ++ includeEnv ++ "\"".data,
   "/p:UseEnv=true".data,
   "/p:Configuration=Release".data]

/-! ### `package_plugin` (source lines 230-258) -/

/-- Archive entry names for the extras tree walk: for each directory of the
walk, `arch_dir = dir.relative_to(include_extras)` (computed before the
empty-directory check), then one entry `arch_dir / filename` per file. -/
def extrasEntries (root : PyPath) : List (PyPath × List Chars) → Except PyExit (List Chars)
  | [] => .ok []
  | (d, files) :: rest =>
      match relativeTo d root with
      | none => .error (.uncaught "ValueError")
      | some archDir =>
          (extrasEntries root rest).map (fun tail =>
            (if files.isEmpty then [] else
              files.map (fun f => pathStr (pathDiv archDir f))) ++ tail)

/-- The archive path of the binary entry:
`f"Data/F4SE/Plugins/{plugin_dll}"` — the whole path object is interpolated,
not just its file name. -/
def dllArcName (dllPath : Chars) : Chars := "Data/F4SE/Plugins/".data ++ dllPath

/-- The complete entry list of the zip archive: the binary entry, then the
extras-tree entries (when an extras directory was supplied). -/
def packageEntries (dllPath : Chars)
    (extras : Option (PyPath × List (PyPath × List Chars))) :
    Except PyExit (List Chars) :=
  match extras with
  | none => .ok [dllArcName dllPath]
  | some re => (extrasEntries re.1 re.2).map (fun es => dllArcName dllPath :: es)

/-- `package_plugin`: archive display name from `Config.h` (any failure falls
back to `plugin`), first `*.dll` under `build_dir/x64/Release` (missing →
uncaught `StopIteration`), then the archive `<name>.zip` with its entries. -/
def package_plugin (fs : FS) (projectDir buildDir : PyPath)
    (extras : Option (PyPath × List (PyPath × List Chars))) :
    Except PyExit (Chars × List Chars) :=
  let archiveName :=
    match fsRead fs (pathStr (pathDiv projectDir "Config.h".data)) with
    | none => "plugin".data
    | some t => computeArchiveName (readlines t)
  match globFirst fs (pathStr (pathDivMulti buildDir ["x64".data, "Release".data]))
      ".dll".data with
  | none => .error (.uncaught "StopIteration")
  | some dll =>
      (packageEntries dll extras).map (fun es => (archiveName ++ ".zip".data, es))

/-! ### The pipeline (`main`, source lines 34-53) -/

/-- Modelled from the spec: the bundled template solution file
`f4se_plugin.sln` is shipped next to the script and is not part of the
modelled source tree.  Per the spec it contains a project declaration line
with the placeholder name `PLUGIN_NAME`, the placeholder path `PLUGIN_DIR`
and the all-zero placeholder identifier, plus configuration lines referring
to the identifier. -/
def templateSln : Chars :=
  ("Microsoft Visual Studio Solution File, Format Version 12.00\n"
   ++ "Project(\"\x7b8BC9CEB8-8B4A-11D0-8D11-00A0C91BC942\x7d\") = "
   ++ "\"PLUGIN_NAME\", \"PLUGIN_DIR\", "
   ++ "\"\x7b00000000-0000-0000-0000-000000000000\x7d\"\nEndProject\n"
   ++ "Global\n\t\x7b00000000-0000-0000-0000-000000000000\x7d.Release|x64.ActiveCfg"
   ++ " = Release|x64\nEndGlobal\n").data

inductive Stage : Type
  | fetch | patch | updateRefs | makeSol | build | package
deriving DecidableEq, Repr

/-- The environment of a run: exit statuses of external commands, the
filesystem as the git fetch stage leaves it, and the inherited `INCLUDE`
variable. -/
structure PipeEnv : Type where
  run : List Chars → Nat
  fsAfterFetch : FS
  includeEnv : Chars

/-- Command-line arguments plus the pre-run existence of the two clones and
the walk listing of the optional extras tree. -/
structure PipeArgs : Type where
  distDir : PyPath
  projectDir : PyPath
  buildDir : PyPath
  platformToolset : Chars
  f4seRevision : Chars
  includeExtras : Option (PyPath × List (PyPath × List Chars))
  f4seExists : Bool
  commonExists : Bool

/-- The stages `patch_f4se`, `update_project_references`, `make_solution`
chained as in `main` (run only when every fetch command succeeded). -/
def stagesThroughMakeSol (env : PipeEnv) (args : PipeArgs) :
    Except PyExit (FS × Chars × PyPath × FS) :=
  match patch_f4se env.fsAfterFetch (pathDiv args.buildDir "f4se".data) with
  | .error e => .error e
  | .ok fsn =>
      match update_project_references fsn.1 args.projectDir args.buildDir with
      | .error e => .error e
      | .ok fsp =>
          match make_solution fsp.1 fsp.2.1 args.buildDir fsp.2.2 templateSln with
          | .error e => .error e
          | .ok fs3 => .ok (fsp.1, fsp.2.1, fsp.2.2, fs3)

/-- The whole run of `main`: the list of stages that were started, and the
outcome.  Every stage failure aborts the run (`SystemExit` / uncaught
exception propagate out of `main`). -/
def runPipeline (env : PipeEnv) (args : PipeArgs) : List Stage × Except PyExit Unit :=
  match runCmdsSeq env.run
      (fetchCmds args.buildDir args.f4seRevision args.f4seExists args.commonExists) with
  | .error e => ([.fetch], .error e)
  | .ok _ =>
      match patch_f4se env.fsAfterFetch (pathDiv args.buildDir "f4se".data) with
      | .error e => ([.fetch, .patch], .error e)
      | .ok fsn =>
          match update_project_references fsn.1 args.projectDir args.buildDir with
          | .error e => ([.fetch, .patch, .updateRefs], .error e)
          | .ok fsp =>
              match make_solution fsp.1 fsp.2.1 args.buildDir fsp.2.2 templateSln with
              | .error e => ([.fetch, .patch, .updateRefs, .makeSol], .error e)
              | .ok fs3 =>
                  let mc := msbuildCmd args.buildDir args.platformToolset env.includeEnv
                  if env.run mc = 0 then
                    match package_plugin fs3 args.projectDir args.buildDir
                        args.includeExtras with
                    | .error e =>
                        ([.fetch, .patch, .updateRefs, .makeSol, .build, .package],
                         .error e)
                    | .ok _ =>
                        ([.fetch, .patch, .updateRefs, .makeSol, .build, .package],
                         .ok ())
                  else
                    ([.fetch, .patch, .updateRefs, .makeSol, .build],
                     .error (.sysExit (env.run mc) none))

/-! ## Claim theorems -/

/-- Header for the run described by claim C1: `PLUGIN_NAME_LONG` is defined
with value `MyPlugin` and `PLUGIN_VERSION_STRING` with value `1.0`. -/
def c1Header : List Chars :=
  ["#define PLUGIN_NAME_LONG \"MyPlugin\"\n".data,
   "#define PLUGIN_VERSION_STRING \"1.0\"\n".data]

/-- Claim C1 (code bug): on a configuration header defining
`PLUGIN_NAME_LONG="MyPlugin"` and `PLUGIN_VERSION_STRING="1.0"`, the claim
(and the spec) say the archive is named `MyPlugin 1.0.zip`, but the code
stores `properties[m[0]] = m[1] or m[2]` — keyed by the whole matched line
text and valued by the macro name — so `properties.get("PLUGIN_NAME_LONG")`
is `None`, `properties["PLUGIN_NAME_SHORT"]` raises `KeyError`, and the
`except` clause yields the generic name: the archive is `plugin.zip`. -/
theorem c1_packager_archive_name_bug :
    archiveFileName c1Header = "plugin.zip".data ∧
    archiveFileName c1Header ≠ "MyPlugin 1.0.zip".data := by decide

/-- Extras tree for the C2 counterexample: root `ex` containing an empty root
level and a subdirectory `sub` with a file `a.dll`. -/
def c2Extras : Option (PyPath × List (PyPath × List Chars)) :=
  some (⟨["ex".data]⟩, [(⟨["ex".data]⟩, []), (⟨["ex".data, "sub".data]⟩, ["a.dll".data])])

/-- The entry list the packager produces in the C2 counterexample run. -/
def c2Entries : List Chars :=
  ["Data/F4SE/Plugins/build/x64/Release/MyPlugin.dll".data, "sub/a.dll".data]

/-- Claim C2 counterexample: in a run with build directory `build`, binary
`MyPlugin.dll` and an extras tree containing `sub/a.dll`, the archive holds
two `.dll` entries (not exactly one), and no entry equals
`Data/F4SE/Plugins/MyPlugin.dll` — the binary entry embeds the binary's whole
path (`zipf.write(plugin_dll, f"Data/F4SE/Plugins/{plugin_dll}")`), not its
file name. -/
theorem c2_zip_entry_counterexample :
    packageEntries "build/x64/Release/MyPlugin.dll".data c2Extras = .ok c2Entries ∧
    (c2Entries.filter (fun e => ".dll".data.isSuffixOf e)).length = 2 ∧
    "Data/F4SE/Plugins/MyPlugin.dll".data ∉ c2Entries := by decide

/-- Claim C2 (amended): in a run with no extras directory, the archive
contains exactly one entry; it is the binary entry, its archive path is
`Data/F4SE/Plugins/` followed by the binary's whole path string (which lies
under `build_dir/x64/Release/` and ends in `.dll`), not just its file name. -/
theorem c2_zip_entry_amended (fs : FS) (bd : PyPath) (p : Chars)
    (h : globFirst fs (pathStr (pathDivMulti bd ["x64".data, "Release".data]))
      ".dll".data = some p) :
    packageEntries p none = .ok [dllArcName p] ∧
    ".dll".data.isSuffixOf p = true ∧
    (pathStr (pathDivMulti bd ["x64".data, "Release".data]) ++ ['/']).isPrefixOf p
      = true := by
  have hp := List.find?_some h
  simp only [Bool.and_eq_true] at hp
  obtain ⟨hpre, hnoslash, hsuf⟩ := hp
  refine ⟨rfl, ?_, hpre⟩
  rcases List.isPrefixOf_iff_prefix.mp hpre with ⟨t, ht⟩
  have hlen : (pathStr (pathDivMulti bd ["x64".data, "Release".data]) ++ ['/']).length
      = (pathStr (pathDivMulti bd ["x64".data, "Release".data])).length + 1 := by
    simp
  have hdrop : p.drop ((pathStr (pathDivMulti bd ["x64".data, "Release".data])).length + 1)
      = t := by
    rw [← ht, ← hlen]
    exact List.drop_left _ _
  rw [List.isSuffixOf_iff_suffix] at hsuf ⊢
  rw [hdrop] at hsuf
  exact hsuf.trans ⟨_, ht⟩

/-- Claim C2 amended witness: the concrete no-extras run with build directory
`build` and binary `MyPlugin.dll`. -/
theorem c2_zip_entry_amended_witness :
    globFirst [("build/x64/Release/MyPlugin.dll".data, [])]
      (pathStr (pathDivMulti ⟨["build".data]⟩ ["x64".data, "Release".data]))
      ".dll".data = some "build/x64/Release/MyPlugin.dll".data ∧
    (packageEntries "build/x64/Release/MyPlugin.dll".data none
        = .ok [dllArcName "build/x64/Release/MyPlugin.dll".data] ∧
      ".dll".data.isSuffixOf "build/x64/Release/MyPlugin.dll".data = true ∧
      (pathStr (pathDivMulti ⟨["build".data]⟩ ["x64".data, "Release".data])
        ++ ['/']).isPrefixOf "build/x64/Release/MyPlugin.dll".data = true) :=
  ⟨by decide,
   c2_zip_entry_amended [("build/x64/Release/MyPlugin.dll".data, [])]
     ⟨["build".data]⟩ "build/x64/Release/MyPlugin.dll".data (by decide)⟩

/-- The git checkout command issued for an existing `f4se` clone. -/
def c3CheckoutCmd : List Chars :=
  ["git".data, "-C".data, "build/f4se".data, "checkout".data, "--force".data]

/-- Claim C3 (code bug): for an existing clone the fetcher does issue a
shallow depth-1 fetch of the requested revision, but the command that follows
is `git checkout --force` with no revision argument at all — it re-checks-out
the current HEAD and never moves the working tree to the requested revision,
contradicting the function's own docstring ("Fetch/checkout ... to the
specified revision"). -/
theorem c3_fetch_checkout_bug :
    (fetchCmds ⟨["build".data]⟩ "deadbeef".data true true)[0]? =
      some ["git".data, "-C".data, "build/f4se".data, "fetch".data,
        "--depth=1".data, "origin".data,
        "deadbeef:refs/remotes/origin/deadbeef".data] ∧
    (fetchCmds ⟨["build".data]⟩ "deadbeef".data true true)[1]? = some c3CheckoutCmd ∧
    c3CheckoutCmd.all (fun a => !occursIn "deadbeef".data a) = true := by decide

/-- C4 counterexample input: a closed, empty property group labeled
`Configuration`, followed by a property group labeled `A` that holds the
ConfigurationType element. -/
def c4In : Chars :=
  ("<PropertyGroup Label=\"Configuration\"></PropertyGroup>\n"
   ++ "<PropertyGroup A><ConfigurationType>D</ConfigurationType></PropertyGroup>\n").data

/-- The complete (only) Configuration-labeled property group of `c4In`: its
opening tag through its matching closing tag. -/
def c4Block : Chars :=
  "<PropertyGroup Label=\"Configuration\"></PropertyGroup>".data

/-- The rest of `c4In`: everything after the Configuration-labeled group
closes; it contains no `Label="Configuration"` text. -/
def c4Tail : Chars :=
  "\n<PropertyGroup A><ConfigurationType>D</ConfigurationType></PropertyGroup>\n".data

def c4TailOut : Chars :=
  ("\n<PropertyGroup A><ConfigurationType>StaticLibrary"
   ++ "</ConfigurationType></PropertyGroup>\n").data

/-- Claim C4 counterexample: the lazy `[\S\s]*?` of the substitution pattern
crosses the `</PropertyGroup>` that closes the (empty) Configuration-labeled
group, and the substitution changes text inside the *following*, differently
labeled group.  `c4In` splits as the complete Configuration block `c4Block`
followed by `c4Tail`; the output keeps `c4Block` byte-identical but changes
`c4Tail` — which contains no Configuration-labeled block at all — refuting
"every byte outside such labeled blocks is identical". -/
theorem c4_config_scope_counterexample :
    c4In = c4Block ++ c4Tail ∧
    configTypeSub c4In = c4Block ++ c4TailOut ∧
    c4Tail ≠ c4TailOut ∧
    occursIn confLabelPat c4Tail = false := by decide

/-- Claim C4 (amended): the substitution only rewrites spans that sit
strictly between a `<ConfigurationType>` open tag and a following
`</ConfigurationType>` close tag: every input decomposes into unchanged
chunks interleaved with the replaced spans, the chunk before each span ends
with `<ConfigurationType>`, and the text after it begins with
`</ConfigurationType>`.  (The span is not, in general, inside a
Configuration-labeled property group: the lazy block scan may cross a group
boundary, as the counterexample shows.) -/
theorem c4_config_scope_amended (s : Chars) :
    ∃ ps t, s = interleave ps t ∧
      configTypeSub s = interleave (ps.map (fun p => (p.1, staticLibStr))) t ∧
      flankOk ps t :=
  configTypeSubGo_frame (s.length + 1) s (Nat.lt_succ_self _)

/-- Project file used by the C5 theorems: Globals block declaring name `Foo`
and (non-zero) identifier `{AB}`. -/
def c5Proj : Chars :=
  ("<PropertyGroup Label=\"Globals\"><RootNamespace>Foo</RootNamespace>"
   ++ "<ProjectGuid>\x7bAB\x7d</ProjectGuid></PropertyGroup>\n").data

/-- C5 counterexample template: contains all three placeholders, but not in
the exact `Project(...) = ...` declaration shape `re_project` expects. -/
def c5TemplateBad : Chars :=
  "PLUGIN_NAME PLUGIN_DIR \x7b00000000-0000-0000-0000-000000000000\x7d\n".data

def c5BadOut : Chars := "PLUGIN_NAME PLUGIN_DIR \x7bAB\x7d\n".data

/-- Claim C5 counterexample: a template containing the three placeholders
(but not in the exact project-declaration format) with a project file
declaring name `Foo` and non-zero identifier: the synthesized text still
contains `PLUGIN_NAME` and `PLUGIN_DIR` — `re_project` substitutes only the
exact declaration line, so "contains no remaining occurrence of any of the
three placeholders" fails. -/
theorem c5_solution_sub_counterexample :
    occursIn "PLUGIN_NAME".data c5TemplateBad = true ∧
    occursIn "PLUGIN_DIR".data c5TemplateBad = true ∧
    occursIn zeroGuidPat c5TemplateBad = true ∧
    makeSolutionText c5Proj c5TemplateBad "build.vcxproj".data = .ok c5BadOut ∧
    occursIn "PLUGIN_NAME".data c5BadOut = true ∧
    occursIn "PLUGIN_DIR".data c5BadOut = true := by decide

/-- The synthesized solution for the modelled bundled template and `c5Proj`. -/
def c5GoodOut : Chars :=
  ("Microsoft Visual Studio Solution File, Format Version 12.00\n"
   ++ "Project(\"\x7b8BC9CEB8-8B4A-11D0-8D11-00A0C91BC942\x7d\") = "
   ++ "\"Foo\", \"build.vcxproj\", \"\x7bAB\x7d\"\nEndProject\n"
   ++ "Global\n\t\x7bAB\x7d.Release|x64.ActiveCfg = Release|x64\nEndGlobal\n").data

/-- Claim C5 (amended): for a template whose placeholders occur exactly in
the expected project-declaration format (the bundled template, modelled from
the spec) and a project file declaring name `Foo` and non-zero identifier
`{AB}`, the synthesized solution contains the extracted name, the relative
path and the extracted identifier in place of the placeholders, and no
occurrence of any of the three placeholders remains. -/
theorem c5_solution_sub_amended :
    makeSolutionText c5Proj templateSln "build.vcxproj".data = .ok c5GoodOut ∧
    occursIn "PLUGIN_NAME".data c5GoodOut = false ∧
    occursIn "PLUGIN_DIR".data c5GoodOut = false ∧
    occursIn zeroGuidPat c5GoodOut = false ∧
    occursIn "Foo".data c5GoodOut = true ∧
    occursIn "\x7bAB\x7d".data c5GoodOut = true ∧
    occursIn "build.vcxproj".data c5GoodOut = true := by decide

/-- After an insertion, re-reading the written file recovers exactly the
inserted line list, provided the include is a single newline-terminated line
and the file was empty or contained a newline. -/
theorem readlines_insert (s inc : Chars) (h1 : isNlLine (normInclude inc) = true)
    (h2 : s = [] ∨ '\n' ∈ s) :
    readlines ((pyInsert1 (normInclude inc) (readlines s)).flatten)
      = pyInsert1 (normInclude inc) (readlines s) := by
  rcases h2 with hnil | hnl
  · subst hnil
    show readlines (([normInclude inc] : List Chars).flatten) = _
    rw [show ([normInclude inc] : List Chars).flatten
        = normInclude inc ++ [] from by simp]
    rw [readlines_append_nlLine h1]
    rfl
  · rcases readlines_head_nl hnl with ⟨l0, tl, hrl, hl0⟩
    rw [hrl]
    show readlines ((l0 :: normInclude inc :: tl).flatten) = _
    rw [show (l0 :: normInclude inc :: tl).flatten
        = l0 ++ (normInclude inc ++ tl.flatten) from by simp]
    rw [readlines_append_nlLine hl0, readlines_append_nlLine h1,
      readlines_flatten_tail hrl]
    rfl

/-- Claim C6 counterexample: the include patch is not idempotent for every
file content and include line.  (a) File `abc` with no trailing newline: the
first insertion glues the include onto the only line
(`abc#include <xmmintrin.h>\n`), so the second insertion does not find the
include line and applies again.  (b) An include line containing an interior
newline (`x\ny`) is never found by the exact-line membership check, so it is
re-inserted on every application. -/
theorem c6_include_idem_counterexample :
    ((add_include_line (add_include_line "abc".data xmmIncludeLine).2
        xmmIncludeLine).1 = true ∧
      (add_include_line (add_include_line "abc".data xmmIncludeLine).2
        xmmIncludeLine).2 ≠ (add_include_line "abc".data xmmIncludeLine).2) ∧
    ((add_include_line (add_include_line "a\n".data "x\ny".data).2
        "x\ny".data).1 = true ∧
      (add_include_line (add_include_line "a\n".data "x\ny".data).2
        "x\ny".data).2 ≠ (add_include_line "a\n".data "x\ny".data).2) := by decide

/-- Claim C6 (amended): the include patch is idempotent for every include
line whose normalized form is a single newline-terminated line and every file
that is empty or contains at least one newline: the second application is a
no-op that reports no patch applied. -/
theorem c6_include_idem_amended (s inc : Chars)
    (h1 : isNlLine (normInclude inc) = true) (h2 : s = [] ∨ '\n' ∈ s) :
    add_include_line (add_include_line s inc).2 inc
      = (false, (add_include_line s inc).2) := by
  by_cases hm : normInclude inc ∈ readlines s
  · have hfst : add_include_line s inc = (false, s) := by
      simp [add_include_line, hm]
    rw [hfst]
    simp [add_include_line, hm]
  · have hfst : add_include_line s inc
        = (true, (pyInsert1 (normInclude inc) (readlines s)).flatten) := by
      simp [add_include_line, hm]
    rw [hfst]
    have hre := readlines_insert s inc h1 h2
    have hmem2 : normInclude inc
        ∈ readlines ((pyInsert1 (normInclude inc) (readlines s)).flatten) := by
      rw [hre]
      cases hrl : readlines s with
      | nil => simp [pyInsert1]
      | cons l0 tl => simp [pyInsert1]
    simp [add_include_line, hmem2]

/-- Claim C6 amended witness: concrete newline-terminated file and the
`#include <xmmintrin.h>` patch line of the source. -/
theorem c6_include_idem_amended_witness :
    isNlLine (normInclude xmmIncludeLine) = true ∧
    ("x\n".data = ([] : Chars) ∨ '\n' ∈ "x\n".data) ∧
    add_include_line (add_include_line "x\n".data xmmIncludeLine).2 xmmIncludeLine
      = (false, (add_include_line "x\n".data xmmIncludeLine).2) :=
  ⟨by decide, Or.inr (by decide),
   c6_include_idem_amended "x\n".data xmmIncludeLine (by decide)
     (Or.inr (by decide))⟩

/-- Claim C7 counterexample: the directive is not always inserted "as the
second line".  For the empty file (no line equals the directive) the
directive becomes the only, first line — there is no second line.  For the
file `abc` without trailing newline the directive is glued onto the first
line and is not a line of the result at all. -/
theorem c7_include_insert_counterexample :
    normInclude algorithmIncludeLine ∉ readlines ([] : Chars) ∧
    (readlines (add_include_line [] algorithmIncludeLine).2)[1]? = none ∧
    (readlines (add_include_line [] algorithmIncludeLine).2)[0]?
      = some (normInclude algorithmIncludeLine) ∧
    readlines (add_include_line "abc".data algorithmIncludeLine).2
      = ["abc#include <algorithm>\n".data] ∧
    normInclude algorithmIncludeLine
      ∉ readlines (add_include_line "abc".data algorithmIncludeLine).2 := by decide

/-- Claim C7 (amended): when any line of the file equals the normalized
directive line the file is left unchanged (no patch reported); otherwise the
directive (a single newline-terminated line) is inserted at list index 1 of
the file's line list, and whenever the file is empty or contains a newline
the rewritten file's line list is exactly that insertion — in particular for
a file with at least one newline the directive becomes the second line. -/
theorem c7_include_insert_amended (s inc : Chars)
    (h1 : isNlLine (normInclude inc) = true) :
    (normInclude inc ∈ readlines s → add_include_line s inc = (false, s)) ∧
    (normInclude inc ∉ readlines s →
      (add_include_line s inc).1 = true ∧
      ((s = [] ∨ '\n' ∈ s) →
        readlines (add_include_line s inc).2
          = pyInsert1 (normInclude inc) (readlines s) ∧
        ('\n' ∈ s →
          (readlines (add_include_line s inc).2)[1]?
            = some (normInclude inc)))) := by
  constructor
  · intro hm
    simp [add_include_line, hm]
  · intro hm
    have hfst : add_include_line s inc
        = (true, (pyInsert1 (normInclude inc) (readlines s)).flatten) := by
      simp [add_include_line, hm]
    rw [hfst]
    refine ⟨rfl, ?_⟩
    intro h2
    have hre := readlines_insert s inc h1 h2
    refine ⟨hre, ?_⟩
    intro hnl
    rcases readlines_head_nl hnl with ⟨l0, tl, hrl, _⟩
    rw [hre, hrl]
    simp [pyInsert1]

/-- Claim C7 amended witness: the `#include <algorithm>` patch line of the
source on a two-line file. -/
theorem c7_include_insert_amended_witness :
    isNlLine (normInclude algorithmIncludeLine) = true ∧
    normInclude algorithmIncludeLine ∉ readlines "a\nb\n".data ∧
    (add_include_line "a\nb\n".data algorithmIncludeLine).1 = true ∧
    readlines (add_include_line "a\nb\n".data algorithmIncludeLine).2
      = pyInsert1 (normInclude algorithmIncludeLine) (readlines "a\nb\n".data) ∧
    (readlines (add_include_line "a\nb\n".data algorithmIncludeLine).2)[1]?
      = some (normInclude algorithmIncludeLine) :=
  ⟨by decide, by decide,
   ((c7_include_insert_amended "a\nb\n".data algorithmIncludeLine (by decide)).2
     (by decide)).1,
   (((c7_include_insert_amended "a\nb\n".data algorithmIncludeLine (by decide)).2
     (by decide)).2 (Or.inr (by decide))).1,
   ((((c7_include_insert_amended "a\nb\n".data algorithmIncludeLine (by decide)).2
     (by decide)).2 (Or.inr (by decide))).2 (by decide))⟩

/-- Claim C8 (confirmed): (a) when some git command of the fetch stage exits
non-zero, the run terminates with exactly that exit status (via
`SystemExit(e.returncode)`) after the fetch stage, and no later stage runs;
(b) when every fetch command succeeds, the middle stages succeed, and the
msbuild invocation exits non-zero, the run terminates with the msbuild exit
status and the package stage never runs. -/
theorem c8_exit_propagation (env : PipeEnv) (args : PipeArgs) (c : List Chars) :
    (firstFailing env.run (fetchCmds args.buildDir args.f4seRevision
        args.f4seExists args.commonExists) = some c →
      runPipeline env args = ([Stage.fetch], .error (.sysExit (env.run c) none)) ∧
      env.run c ≠ 0) ∧
    (firstFailing env.run (fetchCmds args.buildDir args.f4seRevision
        args.f4seExists args.commonExists) = none →
      (stagesThroughMakeSol env args).isOk = true →
      env.run (msbuildCmd args.buildDir args.platformToolset env.includeEnv) ≠ 0 →
      runPipeline env args
        = ([Stage.fetch, Stage.patch, Stage.updateRefs, Stage.makeSol, Stage.build],
           .error (.sysExit
             (env.run (msbuildCmd args.buildDir args.platformToolset env.includeEnv))
             none)) ∧
      Stage.package
        ∉ ([Stage.fetch, Stage.patch, Stage.updateRefs, Stage.makeSol,
            Stage.build] : List Stage)) := by
  constructor
  · intro h
    rcases runCmdsSeq_error h with ⟨herr, hne⟩
    refine ⟨?_, hne⟩
    unfold runPipeline
    rw [herr]
  · intro h0 hok hms
    have hfetch := runCmdsSeq_ok h0
    unfold stagesThroughMakeSol at hok
    split at hok
    · simp [Except.isOk, Except.toBool] at hok
    next fsn hp =>
      split at hok
      · simp [Except.isOk, Except.toBool] at hok
      next fsp hu =>
        split at hok
        · simp [Except.isOk, Except.toBool] at hok
        next fs3 hsol =>
          refine ⟨?_, by decide⟩
          simp only [runPipeline, hfetch, hp, hu, hsol]
          rw [if_neg hms]

/-- Fetch-failure environment of the C8 witness: every external command exits
with status 2. -/
def c8EnvA : PipeEnv := ⟨fun _ => 2, [], []⟩

/-- Build-failure environment of the C8 witness: git commands succeed, the
msbuild invocation exits with status 7; the post-fetch filesystem holds the
three patched f4se files and the caller's project file. -/
def c8EnvB : PipeEnv :=
  ⟨fun cmd => if cmd.head? = some "msbuild".data then 7 else 0,
   [("bd/f4se/f4se/f4se.vcxproj".data, "x\n".data),
    ("bd/f4se/f4se/BSSkin.h".data, "y\n".data),
    ("bd/f4se/f4se/PapyrusObjects.h".data, "z\n".data),
    ("pd/a.vcxproj".data, c5Proj)],
   "I".data⟩

def c8Args : PipeArgs :=
  ⟨⟨["d".data]⟩, ⟨["pd".data]⟩, ⟨["bd".data]⟩, "v143".data, "r1".data,
   none, false, false⟩

/-- The first (failing) git command of the C8 witness run. -/
def c8CloneCmd : List Chars :=
  ["git".data, "clone".data, "--branch".data, "r1".data, "--depth=1".data,
   F4SE_REPO, "bd/f4se".data]

/-- Claim C8 witness: a concrete run whose first git command fails with
status 2 (the pipeline stops after the fetch stage with exit 2), and a
concrete run where git succeeds, the middle stages succeed, and msbuild fails
with status 7 (the pipeline stops after the build stage with exit 7). -/
theorem c8_exit_propagation_witness :
    (firstFailing c8EnvA.run (fetchCmds c8Args.buildDir c8Args.f4seRevision
        c8Args.f4seExists c8Args.commonExists) = some c8CloneCmd ∧
      runPipeline c8EnvA c8Args
        = ([Stage.fetch], .error (.sysExit (c8EnvA.run c8CloneCmd) none))) ∧
    (firstFailing c8EnvB.run (fetchCmds c8Args.buildDir c8Args.f4seRevision
        c8Args.f4seExists c8Args.commonExists) = none ∧
      (stagesThroughMakeSol c8EnvB c8Args).isOk = true ∧
      c8EnvB.run (msbuildCmd c8Args.buildDir c8Args.platformToolset
        c8EnvB.includeEnv) ≠ 0 ∧
      runPipeline c8EnvB c8Args
        = ([Stage.fetch, Stage.patch, Stage.updateRefs, Stage.makeSol, Stage.build],
           .error (.sysExit (c8EnvB.run (msbuildCmd c8Args.buildDir
             c8Args.platformToolset c8EnvB.includeEnv)) none))) :=
  ⟨⟨by decide,
    ((c8_exit_propagation c8EnvA c8Args c8CloneCmd).1 (by decide)).1⟩,
   ⟨by decide, by decide, by decide,
    ((c8_exit_propagation c8EnvB c8Args c8CloneCmd).2 (by decide) (by decide)
      (by decide)).1⟩⟩

/-- Claim C9 (confirmed): whenever either the name extraction or the
identifier extraction finds no match in the project file, `make_solution`
terminates with `SystemExit(1)` carrying the printed message
`FATAL: Cannot extract name or GUID from project file.`, and — the result
being an error, not a new filesystem — no solution file is written. -/
theorem c9_extraction_fatal (fs : FS) (src : Chars) (bd bp : PyPath)
    (tmpl projText : Chars)
    (hread : fsRead fs src = some projText)
    (hfail : searchProjName projText = none ∨ searchProjGuid projText = none) :
    make_solution fs src bd bp tmpl = .error (.sysExit 1 (some fatalMsg)) := by
  unfold make_solution
  rw [hread]
  rcases hfail with h | h
  · cases hg : searchProjGuid projText <;> simp [h, hg]
  · cases hn : searchProjName projText <;> simp [h, hn]

/-- Claim C9 witness: an empty project file (neither block matches). -/
theorem c9_extraction_fatal_witness :
    fsRead [("p/a.vcxproj".data, ([] : Chars))] "p/a.vcxproj".data
      = some ([] : Chars) ∧
    (searchProjName ([] : Chars) = none ∨ searchProjGuid ([] : Chars) = none) ∧
    make_solution [("p/a.vcxproj".data, ([] : Chars))] "p/a.vcxproj".data
      ⟨["b".data]⟩ (pathDiv ⟨["b".data]⟩ "build.vcxproj".data) templateSln
      = .error (.sysExit 1 (some fatalMsg)) :=
  ⟨by decide, Or.inl (by decide),
   c9_extraction_fatal [("p/a.vcxproj".data, ([] : Chars))] "p/a.vcxproj".data
     ⟨["b".data]⟩ (pathDiv ⟨["b".data]⟩ "build.vcxproj".data) templateSln
     ([] : Chars) (by decide) (Or.inl (by decide))⟩

/-- Claim C10 (confirmed): whenever `update_project_references` succeeds, the
build project path it returns is `build_dir / "build.vcxproj"`, so the
(escaped) relative path `make_solution` substitutes for the `PLUGIN_DIR`
placeholder is the constant `build.vcxproj` — independent of the caller's
project directory and of the source project file's name. -/
theorem c10_relpath_constant (fs : FS) (pd bd : PyPath) (fs' : FS)
    (src : Chars) (bp : PyPath)
    (h : update_project_references fs pd bd = .ok (fs', src, bp)) :
    solutionRelPath bp bd = some "build.vcxproj".data := by
  have hbp : bp = pathDiv bd "build.vcxproj".data := by
    unfold update_project_references at h
    split at h
    · simp at h
    · split at h
      · simp at h
      · simp only [Except.ok.injEq, Prod.mk.injEq] at h
        exact h.2.2.symm
  subst hbp
  unfold solutionRelPath relativeTo
  have hpre : bd.parts.isPrefixOf (pathDiv bd "build.vcxproj".data).parts = true :=
    List.isPrefixOf_iff_prefix.mpr ⟨["build.vcxproj".data], rfl⟩
  rw [if_pos hpre]
  have hdrop : (pathDiv bd "build.vcxproj".data).parts.drop bd.parts.length
      = ["build.vcxproj".data] := List.drop_left _ _
  simp only [Option.map, hdrop]
  decide

/-- Claim C10 witness: a concrete project directory holding `proj/my.vcxproj`
and build directory `out`. -/
theorem c10_relpath_constant_witness :
    update_project_references [("proj/my.vcxproj".data, "t".data)]
      ⟨["proj".data]⟩ ⟨["out".data]⟩
      = .ok (fsWrite [("proj/my.vcxproj".data, "t".data)]
          (pathStr (pathDiv ⟨["out".data]⟩ "build.vcxproj".data)) "t".data,
        "proj/my.vcxproj".data, pathDiv ⟨["out".data]⟩ "build.vcxproj".data) ∧
    solutionRelPath (pathDiv ⟨["out".data]⟩ "build.vcxproj".data) ⟨["out".data]⟩
      = some "build.vcxproj".data :=
  ⟨by decide,
   c10_relpath_constant [("proj/my.vcxproj".data, "t".data)] ⟨["proj".data]⟩
     ⟨["out".data]⟩
     (fsWrite [("proj/my.vcxproj".data, "t".data)]
       (pathStr (pathDiv ⟨["out".data]⟩ "build.vcxproj".data)) "t".data)
     "proj/my.vcxproj".data (pathDiv ⟨["out".data]⟩ "build.vcxproj".data)
     (by decide)⟩

end BuildPlugin
